import Mathlib

set_option maxRecDepth 40000

/-!
Verification of the simulation core of the Financial-Analysis-Toolkit
(`capstone_finance`): the market-return generator, the withdrawal-policy
family, and the year-by-year cash-flow engine.

Real numbers of the Python code are modelled as rationals (`ℚ`), so the
exact arithmetic identities of the code hold on the nose; integer fields
are `ℤ`/`ℕ`.  Each definition mirrors one function or class of the source
(`core/ledger.py`, `core/market.py`, `core/models.py`, `strategies/`).
-/

/-- Mirrors `core/models.py` `PortfolioParams` (fields only; the pydantic
constraints are the separate predicate `PortfolioParams.Valid`). -/
structure PortfolioParams where
  init_balance : ℚ
  equity_pct : ℚ
  fees_bps : ℤ
  seed : ℤ
deriving DecidableEq

/-- Pydantic validation of `PortfolioParams`: `init_balance > 0`,
`0 ≤ equity_pct ≤ 1`, `fees_bps ≥ 0`. -/
def PortfolioParams.Valid (p : PortfolioParams) : Prop :=
  0 < p.init_balance ∧ 0 ≤ p.equity_pct ∧ p.equity_pct ≤ 1 ∧ 0 ≤ p.fees_bps

instance (p : PortfolioParams) : Decidable p.Valid := by
  unfold PortfolioParams.Valid; infer_instance

/-- Mirrors `core/models.py` `YearState`. -/
structure YearState where
  year : ℤ
  age : ℤ
  balance : ℚ
  inflation : ℚ
  withdrawal_nominal : Option ℚ
deriving DecidableEq

/-- Pydantic validation of `YearState`: the only field constraint in the
model is `age ≥ 0` (`Field(..., ge=0)`); balance and inflation are
unconstrained floats. -/
def YearState.Valid (s : YearState) : Prop := 0 ≤ s.age

instance (s : YearState) : Decidable s.Valid := by
  unfold YearState.Valid; infer_instance

/-- A withdrawal strategy: internal mutable state of type `σ`, the
`_needs_full_state` attribute probed by `CashFlowLedger.run`
(`hasattr` yields `false` for every shipped strategy class), and
`calculate_withdrawal` as a state-passing function. -/
structure Strategy where
  σ : Type
  init : σ
  needsFullState : Bool
  calcW : σ → Option YearState → PortfolioParams → ℚ × σ

/-- Mirrors `CashFlowLedger._no_tax`: the default tax engine, always 0. -/
def noTax (_withdrawal _balance : ℚ) : ℚ := 0

/-- One year transition of the engine, the common code of
`CashFlowLedger.run` lines 96-105 and `run_simulation_vectorized` lines
198-205: subtract the withdrawal, subtract tax when the withdrawal is
positive, then apply the fee factor and market return under a floor of 0. -/
def stepBalance (feeFactor : ℚ) (tax : ℚ → ℚ → ℚ) (bal w ret : ℚ) : ℚ :=
  let b1 := bal - w
  let b2 := if 0 < w then b1 - tax w b1 else b1
  max 0 (b2 * feeFactor * (1 + ret))

/-- Default starting year in `CashFlowLedger.run`. -/
def startingYear : ℤ := 2024

/-- Default starting age in `CashFlowLedger.run`. -/
def startingAge : ℤ := 65

/-- Inner year loop of `CashFlowLedger.run`: iterates the remaining years,
threading the balance and the strategy state.  The strategy receives the
freshly built `YearState` only when `_needs_full_state` is set, and `None`
otherwise, exactly as in lines 76-94 of `core/ledger.py`. -/
def runYears (S : Strategy) (p : PortfolioParams) (tax : ℚ → ℚ → ℚ)
    (ret : ℕ → ℚ) (feeFactor : ℚ) :
    ℕ → ℕ → ℚ → S.σ → List YearState × S.σ
  | 0, _, _, s => ([], s)
  | n + 1, yearIdx, bal, s =>
    let cy : ℤ := startingYear + yearIdx
    let ca : ℤ := startingAge + yearIdx
    let ws :=
      if S.needsFullState then
        S.calcW s (some ⟨cy, ca, bal, 0, none⟩) p
      else
        S.calcW s none p
    let bal1 := stepBalance feeFactor tax bal ws.1 (ret yearIdx)
    let rest := runYears S p tax ret feeFactor n (yearIdx + 1) bal1 ws.2
    (⟨cy, ca, bal1, 0, some ws.1⟩ :: rest.1, rest.2)

/-- Outer path loop of `CashFlowLedger.run`: one strategy instance is
shared across all paths of a run, so its internal state threads through. -/
def runPaths (S : Strategy) (p : PortfolioParams) (tax : ℚ → ℚ → ℚ)
    (rets : ℕ → ℕ → ℚ) (feeFactor : ℚ) (years : ℕ) :
    ℕ → ℕ → S.σ → List (List YearState) × S.σ
  | 0, _, s => ([], s)
  | n + 1, pathIdx, s =>
    let row := runYears S p tax (rets pathIdx) feeFactor years 0 p.init_balance s
    let rest := runPaths S p tax rets feeFactor years n (pathIdx + 1) row.2
    (row.1 :: rest.1, rest.2)

/-- Mirrors `CashFlowLedger.run` (full-history mode): returns one list of
`YearState` per path.  The returns matrix is the function
`rets path year`, the tax engine defaults to `noTax` at call sites. -/
def CashFlowLedger.run (S : Strategy) (p : PortfolioParams)
    (tax : ℚ → ℚ → ℚ) (rets : ℕ → ℕ → ℚ) (years paths : ℕ) :
    List (List YearState) :=
  (runPaths S p tax rets (1 - (p.fees_bps : ℚ) / 10000) years paths 0 S.init).1

/-- Inner year loop of `run_simulation_vectorized`: identical transition,
but the strategy always receives the current `YearState` (lines 187-196). -/
def vecYears (S : Strategy) (p : PortfolioParams) (tax : ℚ → ℚ → ℚ)
    (ret : ℕ → ℚ) (feeFactor : ℚ) :
    ℕ → ℕ → ℚ → S.σ → List ℚ × S.σ
  | 0, _, _, s => ([], s)
  | n + 1, yearIdx, bal, s =>
    let cy : ℤ := startingYear + yearIdx
    let ca : ℤ := startingAge + yearIdx
    let ws := S.calcW s (some ⟨cy, ca, bal, 0, none⟩) p
    let bal1 := stepBalance feeFactor tax bal ws.1 (ret yearIdx)
    let rest := vecYears S p tax ret feeFactor n (yearIdx + 1) bal1 ws.2
    (bal1 :: rest.1, rest.2)

/-- Outer path loop of `run_simulation_vectorized`. -/
def vecPaths (S : Strategy) (p : PortfolioParams) (tax : ℚ → ℚ → ℚ)
    (rets : ℕ → ℕ → ℚ) (feeFactor : ℚ) (years : ℕ) :
    ℕ → ℕ → S.σ → List (List ℚ) × S.σ
  | 0, _, s => ([], s)
  | n + 1, pathIdx, s =>
    let row := vecYears S p tax (rets pathIdx) feeFactor years 0 p.init_balance s
    let rest := vecPaths S p tax rets feeFactor years n (pathIdx + 1) row.2
    (row.1 :: rest.1, rest.2)

/-- Mirrors `run_simulation_vectorized`: the balance-only matrix, as a list
of rows (one per path, one entry per year). -/
def runSimulationVectorized (S : Strategy) (p : PortfolioParams)
    (tax : ℚ → ℚ → ℚ) (rets : ℕ → ℕ → ℚ) (years paths : ℕ) :
    List (List ℚ) :=
  (vecPaths S p tax rets (1 - (p.fees_bps : ℚ) / 10000) years paths 0 S.init).1

/-- Mirrors `strategies/dummy.py` `DummyStrategy`: always withdraws 0. -/
def dummyStrategy : Strategy where
  σ := Unit
  init := ()
  needsFullState := false
  calcW := fun s _ _ => (0, s)

/-- Mirrors `strategies/four_percent_rule.py` `FourPercentRule`:
4 percent of the initial balance, scaled by `1 + inflation` when a state
is present. -/
def fourPercentRule : Strategy where
  σ := Unit
  init := ()
  needsFullState := false
  calcW := fun s st p =>
    let base := p.init_balance * (4 / 100)
    match st with
    | none => (base, s)
    | some st => (base * (1 + st.inflation), s)

/-- Mirrors `strategies/constant_percentage.py`
`ConstantPercentageStrategy`: a fixed percentage of the current balance
(of the initial balance when the state is absent). -/
def constantPercentageStrategy (percentage : ℚ) : Strategy where
  σ := Unit
  init := ()
  needsFullState := false
  calcW := fun s st p =>
    match st with
    | none => (p.init_balance * percentage, s)
    | some st => (st.balance * percentage, s)

/-- Constructor validation of `ConstantPercentageStrategy`. -/
def constantPercentageValid (percentage : ℚ) : Prop :=
  0 ≤ percentage ∧ percentage ≤ 1

/-- Constructor parameters of `strategies/endowment.py` `EndowmentStrategy`. -/
structure EndowmentConfig where
  alpha : ℚ
  beta : ℚ
  window : ℕ

/-- Constructor validation of `EndowmentStrategy`: weights in `[0, 1]`,
`alpha + beta = 1` (exact over `ℚ`; the code allows tolerance `1e-10` on
floats), `window ≥ 1`. -/
def EndowmentConfig.Valid (cfg : EndowmentConfig) : Prop :=
  0 ≤ cfg.alpha ∧ cfg.alpha ≤ 1 ∧ 0 ≤ cfg.beta ∧ cfg.beta ≤ 1 ∧
    cfg.alpha + cfg.beta = 1 ∧ 1 ≤ cfg.window

/-- A `deque(maxlen=window)` append: add on the right, evicting from the
left anything beyond the window capacity. -/
def pushWindow (window : ℕ) (hist : List ℚ) (x : ℚ) : List ℚ :=
  let h := hist ++ [x]
  h.drop (h.length - window)

/-- Mirrors `EndowmentStrategy.calculate_withdrawal` as a state-passing
function over the `portfolio_history` deque: when the state is absent the
history is first cleared and the initial balance observed; the observed
balance is appended, and the result is
`alpha * current + beta * mean(history)`.  The `len == 0` guard of the
source is kept although the history is never empty after the append. -/
def endowmentCalc (cfg : EndowmentConfig) (hist : List ℚ)
    (st : Option YearState) (p : PortfolioParams) : ℚ × List ℚ :=
  let currentBalance := match st with
    | none => p.init_balance
    | some s => s.balance
  let hist1 := match st with
    | none => pushWindow cfg.window [] currentBalance
    | some _ => pushWindow cfg.window hist currentBalance
  let movingAverage :=
    if hist1.length = 0 then currentBalance
    else hist1.sum / (hist1.length : ℚ)
  (cfg.alpha * currentBalance + cfg.beta * movingAverage, hist1)

/-- Mirrors `EndowmentStrategy` as a `Strategy` (fresh instance: empty
history). -/
def endowmentStrategy (cfg : EndowmentConfig) : Strategy where
  σ := List ℚ
  init := []
  needsFullState := false
  calcW := fun hist st p => endowmentCalc cfg hist st p

/-- Constructor parameters of `strategies/guyton_klinger.py`
`GuytonKlingerStrategy`, with the guardrail thresholds precomputed at
construction exactly as in `__init__`. -/
structure GKConfig where
  initial_rate : ℚ
  guard_pct : ℚ
  raise_pct : ℚ
  cut_pct : ℚ
  upper_guardrail : ℚ
  lower_guardrail : ℚ

/-- Mirrors `GuytonKlingerStrategy.__init__`: stores the parameters and the
derived guardrails. -/
def mkGKConfig (initial_rate guard_pct raise_pct cut_pct : ℚ) : GKConfig where
  initial_rate := initial_rate
  guard_pct := guard_pct
  raise_pct := raise_pct
  cut_pct := cut_pct
  upper_guardrail := initial_rate * (1 + guard_pct)
  lower_guardrail := initial_rate * (1 - guard_pct)

/-- Constructor validation of `GuytonKlingerStrategy`: each rate strictly
between 0 and 1. -/
def gkValid (initial_rate guard_pct raise_pct cut_pct : ℚ) : Prop :=
  0 < initial_rate ∧ initial_rate < 1 ∧ 0 < guard_pct ∧ guard_pct < 1 ∧
    0 < raise_pct ∧ raise_pct < 1 ∧ 0 < cut_pct ∧ cut_pct < 1

/-- Internal mutable state of `GuytonKlingerStrategy`: `_base_withdrawal`,
`_cumulative_inflation`, `_last_year`. -/
structure GKState where
  base : Option ℚ
  cumInfl : ℚ
  lastYear : Option ℤ
deriving DecidableEq

/-- Fresh `GuytonKlingerStrategy` internal state. -/
def gkInit : GKState := { base := none, cumInfl := 1, lastYear := none }

/-- Inflation-tracking update of `calculate_withdrawal` lines 98-106: the
multiplier compounds by `1 + inflation` on the first stateful call and on
consecutive years, and is frozen otherwise. -/
def gkNewCumInfl (st : GKState) (s : YearState) : ℚ :=
  match st.lastYear with
  | none => st.cumInfl * (1 + s.inflation)
  | some ly => if s.year = ly + 1 then st.cumInfl * (1 + s.inflation) else st.cumInfl

/-- Mirrors `GuytonKlingerStrategy.calculate_withdrawal` as a state-passing
function: fixes the base on first call, returns it for an absent state,
and otherwise compounds the cumulative inflation multiplier for
consecutive years, floors at zero balance, and applies the guardrail
cut/raise rules, persisting any adjustment in the base. -/
def gkCalc (cfg : GKConfig) (st : GKState) (state : Option YearState)
    (p : PortfolioParams) : ℚ × GKState :=
  let base := match st.base with
    | none => p.init_balance * cfg.initial_rate
    | some b => b
  match state with
  | none => (base, { st with base := some base })
  | some s =>
    let cumInfl := gkNewCumInfl st s
    let st1 : GKState := { base := some base, cumInfl := cumInfl, lastYear := some s.year }
    let inflationAdjusted := base * cumInfl
    let currentBalance := s.balance
    if currentBalance ≤ 0 then (0, st1)
    else
      let currentRate := inflationAdjusted / currentBalance
      if currentRate > cfg.upper_guardrail then
        if currentBalance ≤ p.init_balance * (12 / 10) then
          let adjusted := inflationAdjusted * (1 - cfg.cut_pct)
          (adjusted, { st1 with base := some (adjusted / cumInfl) })
        else (inflationAdjusted, st1)
      else if currentRate < cfg.lower_guardrail then
        if currentBalance ≥ p.init_balance * (8 / 10) then
          let adjusted := inflationAdjusted * (1 + cfg.raise_pct)
          (adjusted, { st1 with base := some (adjusted / cumInfl) })
        else (inflationAdjusted, st1)
      else (inflationAdjusted, st1)

/-- Mirrors `GuytonKlingerStrategy` as a `Strategy` (fresh instance). -/
def guytonKlingerStrategy (initial_rate guard_pct raise_pct cut_pct : ℚ) :
    Strategy where
  σ := GKState
  init := gkInit
  needsFullState := false
  calcW := fun st s p =>
    gkCalc (mkGKConfig initial_rate guard_pct raise_pct cut_pct) st s p

/-- Python truncation `int(q)` on a rational: toward zero. -/
def pyTrunc (q : ℚ) : ℤ := if 0 ≤ q then ⌊q⌋ else ⌈q⌉

/-- Python `abs` on integers. -/
def pyAbs (x : ℤ) : ℤ := if x < 0 then -x else x

/-- Mirrors the `min(int_keys, key=lambda x: abs(x - equity_percentage))`
call of `_get_equity_allocation_key`: the first key attaining the minimal
distance (Python `min` keeps the earliest minimum). -/
def closestKey (ep : ℤ) : List ℤ → Option ℤ
  | [] => none
  | k :: ks =>
    some (ks.foldl (fun best x =>
      if pyAbs (x - ep) < pyAbs (best - ep) then x else best) k)

/-- Mirrors `VariablePercentageWithdrawal._get_equity_allocation_key`:
truncate `equity_pct * 100` to an int and pick the closest table key;
`none` models the `ValueError` on an empty table. -/
def vpwKey (tables : List (ℤ × List (ℤ × ℚ))) (equity_pct : ℚ) : Option ℤ :=
  closestKey (pyTrunc (equity_pct * 100)) (tables.map (fun e => e.1))

/-- Dictionary lookup `age_table[age]` on the association-list model. -/
def tableLookup (t : List (ℤ × ℚ)) (age : ℤ) : Option ℚ :=
  (t.find? (fun e => e.1 == age)).map (fun e => e.2)

/-- Insertion step of the key-sort used to model Python
`sorted(age_table.keys())` paired with the dict values. -/
def insertPair (e : ℤ × ℚ) : List (ℤ × ℚ) → List (ℤ × ℚ)
  | [] => [e]
  | f :: fs => if e.1 ≤ f.1 then e :: f :: fs else f :: insertPair e fs

/-- Sort an age table by key (insertion sort). -/
def sortPairs : List (ℤ × ℚ) → List (ℤ × ℚ)
  | [] => []
  | e :: es => insertPair e (sortPairs es)

/-- Mirrors the interpolation loop of `_get_withdrawal_percentage`: scan
consecutive sorted ages for a bracketing pair, linearly interpolate there,
otherwise fall through to the `0.04` default return. -/
def interpScan (age : ℤ) : List (ℤ × ℚ) → ℚ
  | (a1, r1) :: (a2, r2) :: rest =>
    if a1 ≤ age ∧ age ≤ a2 then
      let w : ℚ := ((age : ℚ) - (a1 : ℚ)) / ((a2 : ℚ) - (a1 : ℚ))
      min (r1 + w * (r2 - r1)) 10 / 100
    else interpScan age ((a2, r2) :: rest)
  | _ => 4 / 100

/-- Mirrors `VariablePercentageWithdrawal._get_withdrawal_percentage`:
exact hit capped at 10 and divided by 100, clamping below the minimal and
above the maximal table age, linear interpolation in between; `none`
models the `min()/max()` exception on an empty age table. -/
def getWithdrawalPct (t : List (ℤ × ℚ)) (age : ℤ) : Option ℚ :=
  match tableLookup t age with
  | some v => some (min v 10 / 100)
  | none =>
    match (t.map (fun e => e.1)).min?, (t.map (fun e => e.1)).max? with
    | some minAge, some maxAge =>
      if age < minAge then (tableLookup t minAge).map (fun v => min v 10 / 100)
      else if maxAge < age then (tableLookup t maxAge).map (fun v => min v 10 / 100)
      else some (interpScan age (sortPairs t))
    | _, _ => none

/-- Default VPW age table for the 20 percent equity allocation. -/
def vpwTable20 : List (ℤ × ℚ) :=
  [(45, 3.0), (46, 3.0), (47, 3.1), (48, 3.1), (49, 3.2), (50, 3.2),
   (51, 3.3), (52, 3.3), (53, 3.4), (54, 3.4), (55, 3.5), (56, 3.6),
   (57, 3.6), (58, 3.7), (59, 3.8), (60, 3.9), (61, 4.0), (62, 4.1),
   (63, 4.2), (64, 4.3), (65, 4.4), (66, 4.5), (67, 4.6), (68, 4.8),
   (69, 4.9), (70, 5.0), (71, 5.2), (72, 5.3), (73, 5.5), (74, 5.6),
   (75, 5.8), (76, 6.0), (77, 6.2), (78, 6.4), (79, 6.6), (80, 6.8),
   (81, 7.1), (82, 7.3), (83, 7.6), (84, 7.9), (85, 8.2), (86, 8.5),
   (87, 8.8), (88, 9.2), (89, 9.6), (90, 10.0), (91, 10.0), (92, 10.0),
   (93, 10.0), (94, 10.0), (95, 10.0)]

/-- Default VPW age table for the 40 percent equity allocation. -/
def vpwTable40 : List (ℤ × ℚ) :=
  [(45, 2.7), (46, 2.7), (47, 2.8), (48, 2.8), (49, 2.9), (50, 2.9),
   (51, 3.0), (52, 3.0), (53, 3.1), (54, 3.1), (55, 3.2), (56, 3.2),
   (57, 3.3), (58, 3.4), (59, 3.4), (60, 3.5), (61, 3.6), (62, 3.7),
   (63, 3.8), (64, 3.9), (65, 4.0), (66, 4.1), (67, 4.2), (68, 4.3),
   (69, 4.4), (70, 4.5), (71, 4.7), (72, 4.8), (73, 4.9), (74, 5.1),
   (75, 5.2), (76, 5.4), (77, 5.6), (78, 5.8), (79, 6.0), (80, 6.2),
   (81, 6.4), (82, 6.6), (83, 6.9), (84, 7.2), (85, 7.5), (86, 7.8),
   (87, 8.1), (88, 8.5), (89, 8.9), (90, 9.3), (91, 9.7), (92, 10.0),
   (93, 10.0), (94, 10.0), (95, 10.0)]

/-- Default VPW age table for the 60 percent equity allocation. -/
def vpwTable60 : List (ℤ × ℚ) :=
  [(45, 2.5), (46, 2.5), (47, 2.6), (48, 2.6), (49, 2.6), (50, 2.7),
   (51, 2.7), (52, 2.8), (53, 2.8), (54, 2.9), (55, 2.9), (56, 3.0),
   (57, 3.0), (58, 3.1), (59, 3.1), (60, 3.2), (61, 3.3), (62, 3.3),
   (63, 3.4), (64, 3.5), (65, 3.6), (66, 3.7), (67, 3.8), (68, 3.9),
   (69, 4.0), (70, 4.1), (71, 4.2), (72, 4.3), (73, 4.4), (74, 4.6),
   (75, 4.7), (76, 4.9), (77, 5.0), (78, 5.2), (79, 5.4), (80, 5.6),
   (81, 5.8), (82, 6.0), (83, 6.3), (84, 6.5), (85, 6.8), (86, 7.1),
   (87, 7.4), (88, 7.8), (89, 8.2), (90, 8.6), (91, 9.0), (92, 9.5),
   (93, 10.0), (94, 10.0), (95, 10.0)]

/-- Default VPW age table for the 80 percent equity allocation. -/
def vpwTable80 : List (ℤ × ℚ) :=
  [(45, 2.3), (46, 2.3), (47, 2.4), (48, 2.4), (49, 2.4), (50, 2.5),
   (51, 2.5), (52, 2.5), (53, 2.6), (54, 2.6), (55, 2.7), (56, 2.7),
   (57, 2.8), (58, 2.8), (59, 2.9), (60, 2.9), (61, 3.0), (62, 3.0),
   (63, 3.1), (64, 3.2), (65, 3.3), (66, 3.3), (67, 3.4), (68, 3.5),
   (69, 3.6), (70, 3.7), (71, 3.8), (72, 3.9), (73, 4.0), (74, 4.1),
   (75, 4.2), (76, 4.4), (77, 4.5), (78, 4.7), (79, 4.8), (80, 5.0),
   (81, 5.2), (82, 5.4), (83, 5.6), (84, 5.9), (85, 6.1), (86, 6.4),
   (87, 6.7), (88, 7.1), (89, 7.4), (90, 7.8), (91, 8.3), (92, 8.8),
   (93, 9.3), (94, 9.8), (95, 10.0)]

/-- Mirrors `VariablePercentageWithdrawal.DEFAULT_VPW_TABLES`. -/
def defaultVpwTables : List (ℤ × List (ℤ × ℚ)) :=
  [(20, vpwTable20), (40, vpwTable40), (60, vpwTable60), (80, vpwTable80)]

/-- Age observed by `VariablePercentageWithdrawal.calculate_withdrawal`:
the state's age, or the default retirement age 65 when absent. -/
def vpwObservedAge (st : Option YearState) : ℤ :=
  match st with
  | none => 65
  | some s => s.age

/-- Balance observed by `VariablePercentageWithdrawal.calculate_withdrawal`:
the state's balance, or the initial balance when absent. -/
def vpwObservedBalance (st : Option YearState) (p : PortfolioParams) : ℚ :=
  match st with
  | none => p.init_balance
  | some s => s.balance

/-- Mirrors `VariablePercentageWithdrawal.calculate_withdrawal`: default
age 65 and the initial balance when the state is absent, table selection
by `_get_equity_allocation_key`, percentage by
`_get_withdrawal_percentage`, result `balance * percentage`; `none`
models a raised `ValueError`. -/
def vpwCalc (tables : List (ℤ × List (ℤ × ℚ))) (st : Option YearState)
    (p : PortfolioParams) : Option ℚ :=
  let age : ℤ := vpwObservedAge st
  let balance : ℚ := vpwObservedBalance st p
  match vpwKey tables p.equity_pct with
  | none => none
  | some k =>
    match tables.find? (fun e => e.1 == k) with
    | none => none
    | some e =>
      match getWithdrawalPct e.2 age with
      | some pct => some (balance * pct)
      | none => none

/-- The always-succeeding form of `vpwCalc` on the (nonempty) default
tables; the fallback 0 is unreachable, see `vpwCalc_default_isSome`. -/
def vpwDefaultCalc (st : Option YearState) (p : PortfolioParams) : ℚ :=
  match vpwCalc defaultVpwTables st p with
  | some w => w
  | none => 0

/-- Mirrors `VariablePercentageWithdrawal` with the default tables as a
`Strategy`. -/
def vpwStrategy : Strategy where
  σ := Unit
  init := ()
  needsFullState := false
  calcW := fun s st p => (vpwDefaultCalc st p, s)

/-- Generation mode of `MarketSimulator`. -/
inductive MarketMode where
  | lognormal : MarketMode
  | bootstrap : MarketMode
deriving DecidableEq

/-- Abstract model of the numpy pseudo-random machinery used by
`core/market.py`: a PCG64 generator state seeded from an integer, batch
draws of standard normals and of bounded integers (each advancing the
state), and the legacy `np.random.seed`-then-`normal` sequence used for
the synthetic historical data.  Every draw is a pure function of the
state, which is the determinism contract of numpy. -/
structure RNGImpl where
  State : Type
  pcgInit : ℤ → State
  normalMatrix : State → ℕ → ℕ → (ℕ → ℕ → ℚ) × State
  intMatrix : State → ℕ → ℕ → ℕ → ℕ → (ℕ → ℕ → ℕ) × State
  legacyNormalSeq : ℤ → ℚ → ℚ → ℕ → ℕ → ℚ

/-- Length of the synthetic historical series built by
`_load_historical_data` (100 years). -/
def histYears : ℕ := 100

/-- Number of overlapping 5-year windows precomputed by
`_prepare_bootstrap_data` (`n_years_hist - 4`). -/
def nHistBlocks : ℕ := histYears - 4

/-- Mirrors `MarketSimulator` instance state after `__init__`: params,
mode, the seeded generator, and (bootstrap mode only) the historical
series loaded with the fixed internal seed 12345. -/
structure MarketSimulator (R : RNGImpl) where
  params : PortfolioParams
  mode : MarketMode
  rng : R.State
  historical : Option (ℕ → ℚ)

/-- Mirrors `MarketSimulator.__init__`: seed the generator from
`params.seed`; in bootstrap mode load the synthetic historical data
(`np.random.seed(12345)` then 100 draws from `normal(0.07, 0.18)`). -/
def MarketSimulator.make (R : RNGImpl) (p : PortfolioParams)
    (mode : MarketMode) : MarketSimulator R where
  params := p
  mode := mode
  rng := R.pcgInit p.seed
  historical :=
    if mode = MarketMode.bootstrap then
      some (R.legacyNormalSeq 12345 (7 / 100) (18 / 100) histYears)
    else none

/-- Entry `j` of 5-year window `i` of the historical series
(`_block_returns[i] = returns[i : i + 5]`). -/
def blockReturn (hist : ℕ → ℚ) (i j : ℕ) : ℚ := hist (i + j)

/-- Mirrors `MarketSimulator._generate_bootstrap`: `n_years // 5` blocks
per path with indices from one batched integer draw, then the
`n_years % 5` remainder columns filled from a second batched draw over
the flattened historical pool; columns outside the matrix are the zeros
of the preallocated array. -/
def generateBootstrap (R : RNGImpl) (rng0 : R.State) (hist : ℕ → ℚ)
    (nPaths nYears : ℕ) : (ℕ → ℕ → ℚ) × R.State :=
  let blocksPerPath := nYears / 5
  let remainderYears := nYears % 5
  let draw1 := R.intMatrix rng0 0 nHistBlocks nPaths blocksPerPath
  let blockIdx := draw1.1
  if 0 < remainderYears then
    let draw2 := R.intMatrix draw1.2 0 histYears nPaths remainderYears
    ((fun pdx c =>
        if c < 5 * blocksPerPath then
          blockReturn hist (blockIdx pdx (c / 5)) (c % 5)
        else if c < nYears then hist (draw2.1 pdx (c - 5 * blocksPerPath))
        else 0),
      draw2.2)
  else
    ((fun pdx c =>
        if c < 5 * blocksPerPath then
          blockReturn hist (blockIdx pdx (c / 5)) (c % 5)
        else 0),
      draw1.2)

/-- Mirrors `MarketSimulator.generate`: lognormal mode returns
`0.07 + 0.15 * z` for a batch of standard normals; bootstrap mode
delegates to `generateBootstrap`.  The `historical = none` fallback is
unreachable for simulators built by `MarketSimulator.make` in bootstrap
mode. -/
def MarketSimulator.generate (R : RNGImpl) (sim : MarketSimulator R)
    (nPaths nYears : ℕ) : (ℕ → ℕ → ℚ) × R.State :=
  match sim.mode with
  | MarketMode.lognormal =>
    let draw := R.normalMatrix sim.rng nPaths nYears
    ((fun i j => 7 / 100 + (15 / 100) * draw.1 i j), draw.2)
  | MarketMode.bootstrap =>
    match sim.historical with
    | some hist => generateBootstrap R sim.rng hist nPaths nYears
    | none => ((fun _ _ => 0), sim.rng)

/-- Materialize a function-matrix as a list of rows, the shape of the
numpy array of the code. -/
def matrixToLists (m : ℕ → ℕ → ℚ) (rows cols : ℕ) : List (List ℚ) :=
  (List.range rows).map (fun i => (List.range cols).map (m i))

/-- Age table selected for key `k` (dictionary access
`self.vpw_tables[k]`; the empty table stands for the impossible missing
key). -/
def vpwTableFor (tables : List (ℤ × List (ℤ × ℚ))) (k : ℤ) : List (ℤ × ℚ) :=
  match tables.find? (fun e => e.1 == k) with
  | some e => e.2
  | none => []

/-- Variant of the `CashFlowLedger.run` year loop that passes `None` to
the strategy unconditionally, used to state that the real loop never
builds a state for strategies without `_needs_full_state`. -/
def runYearsStateNone (S : Strategy) (p : PortfolioParams)
    (tax : ℚ → ℚ → ℚ) (ret : ℕ → ℚ) (feeFactor : ℚ) :
    ℕ → ℕ → ℚ → S.σ → List YearState × S.σ
  | 0, _, _, s => ([], s)
  | n + 1, yearIdx, bal, s =>
    let cy : ℤ := startingYear + yearIdx
    let ca : ℤ := startingAge + yearIdx
    let ws := S.calcW s none p
    let bal1 := stepBalance feeFactor tax bal ws.1 (ret yearIdx)
    let rest := runYearsStateNone S p tax ret feeFactor n (yearIdx + 1) bal1 ws.2
    (⟨cy, ca, bal1, 0, some ws.1⟩ :: rest.1, rest.2)

/-- Path loop over `runYearsStateNone`. -/
def runPathsStateNone (S : Strategy) (p : PortfolioParams)
    (tax : ℚ → ℚ → ℚ) (rets : ℕ → ℕ → ℚ) (feeFactor : ℚ) (years : ℕ) :
    ℕ → ℕ → S.σ → List (List YearState) × S.σ
  | 0, _, s => ([], s)
  | n + 1, pathIdx, s =>
    let row := runYearsStateNone S p tax (rets pathIdx) feeFactor years 0 p.init_balance s
    let rest := runPathsStateNone S p tax rets feeFactor years n (pathIdx + 1) row.2
    (row.1 :: rest.1, rest.2)

/-- The `CashFlowLedger.run` behaviour with the strategy probed with
`state = None` in every year of every path. -/
def ledgerRunStateNone (S : Strategy) (p : PortfolioParams)
    (tax : ℚ → ℚ → ℚ) (rets : ℕ → ℕ → ℚ) (years paths : ℕ) :
    List (List YearState) :=
  (runPathsStateNone S p tax rets (1 - (p.fees_bps : ℚ) / 10000) years paths 0 S.init).1

/-- Decidable check that every recorded balance of a full-history result
is non-negative. -/
def statesNonneg (r : List (List YearState)) : Bool :=
  r.all (fun row => row.all (fun st => decide (0 ≤ st.balance)))

/-- Decidable check that every entry of a balance matrix is non-negative. -/
def matNonneg (m : List (List ℚ)) : Bool :=
  m.all (fun row => row.all (fun x => decide (0 ≤ x)))

/-- Driver for the hand-computed scenario of the spec: a strategy that
withdraws a fixed nominal amount every year. -/
def fixedWithdrawalStrategy (amount : ℚ) : Strategy where
  σ := Unit
  init := ()
  needsFullState := false
  calcW := fun s _ _ => (amount, s)

/-- Validity of a strategy input under the semantic reading of the
engine: an absent state, or a pydantic-valid state whose balance is
non-negative and whose inflation is at least -1 (a -100 percent rate). -/
def ValidObservedState : Option YearState → Prop
  | none => True
  | some s => s.Valid ∧ 0 ≤ s.balance ∧ 0 ≤ 1 + s.inflation

/-- A trivial concrete RNG implementation (all draws zero), used to
instantiate theorems that are universally quantified over the numpy
model. -/
def zeroRNG : RNGImpl where
  State := Unit
  pcgInit := fun _ => ()
  normalMatrix := fun s _ _ => ((fun _ _ => 0), s)
  intMatrix := fun s _ _ _ _ => ((fun _ _ => 0), s)
  legacyNormalSeq := fun _ _ _ _ _ => 0

/-- A windowed push with positive capacity never yields an empty history. -/
theorem pushWindow_ne_nil (w : ℕ) (h : List ℚ) (x : ℚ) (hw : 1 ≤ w) :
    pushWindow w h x ≠ [] := by
  unfold pushWindow
  intro hcon
  have hlen := congrArg List.length hcon
  simp [List.length_drop] at hlen
  omega

/-- C8: one year transition with balance 1,000,000, fees 50 bps, market
return 5 percent, withdrawal 40,000 and no tax engine yields exactly
(1,000,000 - 40,000) * 0.995 * 1.05 = 1,002,960 (so in particular within
0.01), both for the shared transition step and for a one-year one-path
`CashFlowLedger.run` with a fixed 40,000 withdrawal strategy; the
transition applies the withdrawal first, then tax only when the
withdrawal is positive, then fee factor and market return under the zero
floor. -/
theorem year_transition_hand_computed :
    stepBalance (1 - (50 : ℚ) / 10000) noTax 1000000 40000 (5 / 100) = 1002960 ∧
    |stepBalance (1 - (50 : ℚ) / 10000) noTax 1000000 40000 (5 / 100) - 1002960| ≤ 1 / 100 ∧
    (CashFlowLedger.run (fixedWithdrawalStrategy 40000) ⟨1000000, 1 / 2, 50, 42⟩
        noTax (fun _ _ => 5 / 100) 1 1).map (fun row => row.map (fun st => st.balance)) =
      [[1002960]] := by
  refine ⟨by with_unfolding_all rfl, ?_, by with_unfolding_all rfl⟩
  have h : stepBalance (1 - (50 : ℚ) / 10000) noTax 1000000 40000 (5 / 100) = 1002960 := by
    with_unfolding_all rfl
  rw [h]
  norm_num

/-- C9: every `EndowmentStrategy` call appends the observed balance (the
state's balance when present; the initial balance to a cleared history
when absent) to the bounded window history and returns
`alpha * current + beta * mean(history)`; with alpha 0.7, beta 0.3,
window 3 and balances 1,000,000; 1,100,000; 900,000 the third call
returns exactly 930,000. -/
theorem endowment_appends_and_returns_mean :
    (∀ (cfg : EndowmentConfig) (hist : List ℚ) (p : PortfolioParams),
      1 ≤ cfg.window →
        (endowmentCalc cfg hist none p).2 = pushWindow cfg.window [] p.init_balance ∧
        (endowmentCalc cfg hist none p).1 =
          cfg.alpha * p.init_balance +
            cfg.beta * ((pushWindow cfg.window [] p.init_balance).sum /
              ((pushWindow cfg.window [] p.init_balance).length : ℚ))) ∧
    (∀ (cfg : EndowmentConfig) (hist : List ℚ) (s : YearState) (p : PortfolioParams),
      1 ≤ cfg.window →
        (endowmentCalc cfg hist (some s) p).2 = pushWindow cfg.window hist s.balance ∧
        (endowmentCalc cfg hist (some s) p).1 =
          cfg.alpha * s.balance +
            cfg.beta * ((pushWindow cfg.window hist s.balance).sum /
              ((pushWindow cfg.window hist s.balance).length : ℚ))) ∧
    (endowmentCalc ⟨7 / 10, 3 / 10, 3⟩
      (endowmentCalc ⟨7 / 10, 3 / 10, 3⟩
        (endowmentCalc ⟨7 / 10, 3 / 10, 3⟩ [] none ⟨1000000, 1 / 2, 0, 42⟩).2
        (some ⟨2025, 66, 1100000, 0, none⟩) ⟨1000000, 1 / 2, 0, 42⟩).2
      (some ⟨2026, 67, 900000, 0, none⟩) ⟨1000000, 1 / 2, 0, 42⟩).1 = 930000 := by
  refine ⟨?_, ?_, by with_unfolding_all rfl⟩
  · intro cfg hist p hw
    have hne := pushWindow_ne_nil cfg.window [] p.init_balance hw
    refine ⟨rfl, ?_⟩
    unfold endowmentCalc
    simp only []
    rw [if_neg (by simpa [List.length_eq_zero] using hne)]
  · intro cfg hist s p hw
    have hne := pushWindow_ne_nil cfg.window hist s.balance hw
    refine ⟨rfl, ?_⟩
    unfold endowmentCalc
    simp only []
    rw [if_neg (by simpa [List.length_eq_zero] using hne)]

/-- Witness for C9 at alpha 0.7, beta 0.3, window 3 on a fresh history. -/
theorem endowment_appends_witness :
    1 ≤ (⟨7 / 10, 3 / 10, 3⟩ : EndowmentConfig).window ∧
    ((endowmentCalc ⟨7 / 10, 3 / 10, 3⟩ [] none ⟨1000000, 1 / 2, 0, 42⟩).2 =
        pushWindow 3 [] 1000000 ∧
      (endowmentCalc ⟨7 / 10, 3 / 10, 3⟩ [] none ⟨1000000, 1 / 2, 0, 42⟩).1 =
        (7 / 10) * 1000000 +
          (3 / 10) * ((pushWindow 3 [] 1000000).sum / ((pushWindow 3 [] 1000000).length : ℚ))) :=
  ⟨by norm_num,
    endowment_appends_and_returns_mean.1 ⟨7 / 10, 3 / 10, 3⟩ [] ⟨1000000, 1 / 2, 0, 42⟩
      (by norm_num)⟩

/-- For a strategy without `_needs_full_state` whose withdrawal does not
depend on the inflation-zero states the engine constructs, the year loops
of the two output modes agree on the balance sequence and on the final
strategy state. -/
theorem runYears_agrees_vecYears (S : Strategy)
    (hN : S.needsFullState = false)
    (hI : ∀ (s : S.σ) (st : YearState) (p1 : PortfolioParams),
      st.inflation = 0 → S.calcW s (some st) p1 = S.calcW s none p1)
    (p : PortfolioParams) (tax : ℚ → ℚ → ℚ) (ret : ℕ → ℚ) (ff : ℚ) :
    ∀ (n yearIdx : ℕ) (bal : ℚ) (s : S.σ),
      (runYears S p tax ret ff n yearIdx bal s).1.map (fun st => st.balance) =
          (vecYears S p tax ret ff n yearIdx bal s).1 ∧
        (runYears S p tax ret ff n yearIdx bal s).2 =
          (vecYears S p tax ret ff n yearIdx bal s).2 := by
  intro n
  induction n with
  | zero => intro yearIdx bal s; exact ⟨rfl, rfl⟩
  | succ m ih =>
    intro yearIdx bal s
    have hcalc := hI s ⟨startingYear + yearIdx, startingAge + yearIdx, bal, 0, none⟩ p rfl
    have ihx := ih (yearIdx + 1)
      (stepBalance ff tax bal (S.calcW s none p).1 (ret yearIdx)) (S.calcW s none p).2
    simp only [runYears, vecYears, hN, Bool.false_eq_true, if_false, hcalc, List.map_cons]
    exact ⟨by rw [ihx.1], ihx.2⟩

/-- Path-level version of `runYears_agrees_vecYears`. -/
theorem runPaths_agrees_vecPaths (S : Strategy)
    (hN : S.needsFullState = false)
    (hI : ∀ (s : S.σ) (st : YearState) (p1 : PortfolioParams),
      st.inflation = 0 → S.calcW s (some st) p1 = S.calcW s none p1)
    (p : PortfolioParams) (tax : ℚ → ℚ → ℚ) (rets : ℕ → ℕ → ℚ) (ff : ℚ) (years : ℕ) :
    ∀ (n pathIdx : ℕ) (s : S.σ),
      (runPaths S p tax rets ff years n pathIdx s).1.map
          (fun row => row.map (fun st => st.balance)) =
          (vecPaths S p tax rets ff years n pathIdx s).1 ∧
        (runPaths S p tax rets ff years n pathIdx s).2 =
          (vecPaths S p tax rets ff years n pathIdx s).2 := by
  intro n
  induction n with
  | zero => intro pathIdx s; exact ⟨rfl, rfl⟩
  | succ m ih =>
    intro pathIdx s
    have hrow := runYears_agrees_vecYears S hN hI p tax (rets pathIdx) ff
      years 0 p.init_balance s
    have ihx := ih (pathIdx + 1) ((vecYears S p tax (rets pathIdx) ff years 0 p.init_balance s).2)
    simp only [runPaths, vecPaths, List.map_cons]
    constructor
    · rw [hrow.1, hrow.2, ihx.1]
    · rw [hrow.2, ihx.2]

/-- C1 (amended): the full-history and balance-matrix output modes agree
on every (path, year) balance for strategies that `CashFlowLedger.run`
probes with `state = None` (no `_needs_full_state` attribute) and whose
withdrawal is unaffected by the inflation-zero states the engine builds;
in particular `DummyStrategy` and `FourPercentRule` satisfy both
conditions.  (As the C1 counterexample shows, the equivalence fails for
state-dependent shipped strategies such as `ConstantPercentageStrategy`,
because `run` passes `None` while the vectorized runner passes the real
state.) -/
theorem ledger_modes_agree :
    (∀ (S : Strategy), S.needsFullState = false →
      (∀ (s : S.σ) (st : YearState) (p1 : PortfolioParams),
        st.inflation = 0 → S.calcW s (some st) p1 = S.calcW s none p1) →
      ∀ (p : PortfolioParams) (tax : ℚ → ℚ → ℚ) (rets : ℕ → ℕ → ℚ) (years paths : ℕ),
        (CashFlowLedger.run S p tax rets years paths).map
            (fun row => row.map (fun st => st.balance)) =
          runSimulationVectorized S p tax rets years paths) ∧
    (dummyStrategy.needsFullState = false ∧
      ∀ (s : Unit) (st : YearState) (p1 : PortfolioParams), st.inflation = 0 →
        dummyStrategy.calcW s (some st) p1 = dummyStrategy.calcW s none p1) ∧
    (fourPercentRule.needsFullState = false ∧
      ∀ (s : Unit) (st : YearState) (p1 : PortfolioParams), st.inflation = 0 →
        fourPercentRule.calcW s (some st) p1 = fourPercentRule.calcW s none p1) := by
  refine ⟨?_, ⟨rfl, ?_⟩, ⟨rfl, ?_⟩⟩
  · intro S hN hI p tax rets years paths
    exact (runPaths_agrees_vecPaths S hN hI p tax rets
      (1 - (p.fees_bps : ℚ) / 10000) years paths 0 S.init).1
  · intro s st p1 _
    rfl
  · intro s st p1 h
    simp [fourPercentRule, h]

/-- Witness for C1 (amended) at `DummyStrategy`, one path, one year. -/
theorem ledger_modes_agree_witness :
    dummyStrategy.needsFullState = false ∧
    (CashFlowLedger.run dummyStrategy ⟨1000000, 1 / 2, 50, 42⟩ noTax
        (fun _ _ => 5 / 100) 1 1).map (fun row => row.map (fun st => st.balance)) =
      runSimulationVectorized dummyStrategy ⟨1000000, 1 / 2, 50, 42⟩ noTax
        (fun _ _ => 5 / 100) 1 1 :=
  ⟨rfl,
    ledger_modes_agree.1 dummyStrategy rfl (fun _ _ _ _ => rfl)
      ⟨1000000, 1 / 2, 50, 42⟩ noTax (fun _ _ => 5 / 100) 1 1⟩

/-- C1 counterexample: with the shipped `ConstantPercentageStrategy`
(5 percent), valid parameters, zero fees, zero returns, one path and two
years, the full-history balances are [[95, 90]] while the vectorized
balances are [[95, 90.25]]: `CashFlowLedger.run` probes the strategy with
`state = None` (withdrawing 5 percent of the initial balance every year)
while `run_simulation_vectorized` passes the evolving state. -/
theorem ledger_modes_disagree_constant_pct :
    PortfolioParams.Valid ⟨100, 1 / 2, 0, 42⟩ ∧
    (CashFlowLedger.run (constantPercentageStrategy (1 / 20)) ⟨100, 1 / 2, 0, 42⟩
        noTax (fun _ _ => 0) 2 1).map (fun row => row.map (fun st => st.balance)) =
      [[95, 90]] ∧
    runSimulationVectorized (constantPercentageStrategy (1 / 20)) ⟨100, 1 / 2, 0, 42⟩
        noTax (fun _ _ => 0) 2 1 = [[95, 361 / 4]] ∧
    (CashFlowLedger.run (constantPercentageStrategy (1 / 20)) ⟨100, 1 / 2, 0, 42⟩
        noTax (fun _ _ => 0) 2 1).map (fun row => row.map (fun st => st.balance)) ≠
      runSimulationVectorized (constantPercentageStrategy (1 / 20)) ⟨100, 1 / 2, 0, 42⟩
        noTax (fun _ _ => 0) 2 1 := by
  have h1 : (CashFlowLedger.run (constantPercentageStrategy (1 / 20)) ⟨100, 1 / 2, 0, 42⟩
      noTax (fun _ _ => 0) 2 1).map (fun row => row.map (fun st => st.balance)) =
      [[95, 90]] := by with_unfolding_all rfl
  have h2 : runSimulationVectorized (constantPercentageStrategy (1 / 20)) ⟨100, 1 / 2, 0, 42⟩
      noTax (fun _ _ => 0) 2 1 = [[95, 361 / 4]] := by with_unfolding_all rfl
  refine ⟨by norm_num [PortfolioParams.Valid], h1, h2, ?_⟩
  rw [h1, h2]
  intro hcon
  simp only [List.cons.injEq] at hcon
  have := hcon.1.2.1
  norm_num at this

/-- Year-loop version: without `_needs_full_state` the real loop equals
the always-`None` loop. -/
theorem runYears_eq_stateNone (S : Strategy) (hN : S.needsFullState = false)
    (p : PortfolioParams) (tax : ℚ → ℚ → ℚ) (ret : ℕ → ℚ) (ff : ℚ) :
    ∀ (n yearIdx : ℕ) (bal : ℚ) (s : S.σ),
      runYears S p tax ret ff n yearIdx bal s =
        runYearsStateNone S p tax ret ff n yearIdx bal s := by
  intro n
  induction n with
  | zero => intro yearIdx bal s; rfl
  | succ m ih =>
    intro yearIdx bal s
    simp only [runYears, runYearsStateNone, hN, Bool.false_eq_true, if_false, ih]

/-- Path-loop version of `runYears_eq_stateNone`. -/
theorem runPaths_eq_stateNone (S : Strategy) (hN : S.needsFullState = false)
    (p : PortfolioParams) (tax : ℚ → ℚ → ℚ) (rets : ℕ → ℕ → ℚ) (ff : ℚ) (years : ℕ) :
    ∀ (n pathIdx : ℕ) (s : S.σ),
      runPaths S p tax rets ff years n pathIdx s =
        runPathsStateNone S p tax rets ff years n pathIdx s := by
  intro n
  induction n with
  | zero => intro pathIdx s; rfl
  | succ m ih =>
    intro pathIdx s
    simp only [runPaths, runPathsStateNone,
      runYears_eq_stateNone S hN p tax (rets pathIdx) ff years 0 p.init_balance s, ih]

/-- C2: none of the shipped strategy classes (`DummyStrategy`,
`FourPercentRule`, `ConstantPercentageStrategy`, `EndowmentStrategy`,
`GuytonKlingerStrategy`, `VariablePercentageWithdrawal`) carries the
`_needs_full_state` attribute, and for any such strategy
`CashFlowLedger.run` invokes `calculate_withdrawal` with `state = None`
in every year of every path (the run is identical to the always-`None`
runner), so in full-history mode these strategies never observe the
evolving balance, age, year or inflation. -/
theorem run_passes_none_to_all_shipped_strategies :
    dummyStrategy.needsFullState = false ∧
    fourPercentRule.needsFullState = false ∧
    (∀ q : ℚ, (constantPercentageStrategy q).needsFullState = false) ∧
    (∀ cfg : EndowmentConfig, (endowmentStrategy cfg).needsFullState = false) ∧
    (∀ a b c d : ℚ, (guytonKlingerStrategy a b c d).needsFullState = false) ∧
    vpwStrategy.needsFullState = false ∧
    (∀ (S : Strategy), S.needsFullState = false →
      ∀ (p : PortfolioParams) (tax : ℚ → ℚ → ℚ) (rets : ℕ → ℕ → ℚ) (years paths : ℕ),
        CashFlowLedger.run S p tax rets years paths =
          ledgerRunStateNone S p tax rets years paths) := by
  refine ⟨rfl, rfl, fun _ => rfl, fun _ => rfl, fun _ _ _ _ => rfl, rfl, ?_⟩
  intro S hN p tax rets years paths
  unfold CashFlowLedger.run ledgerRunStateNone
  rw [runPaths_eq_stateNone S hN p tax rets (1 - (p.fees_bps : ℚ) / 10000) years paths 0 S.init]

/-- Witness for C2 at the endowment strategy, two paths, two years. -/
theorem run_passes_none_witness :
    (endowmentStrategy ⟨7 / 10, 3 / 10, 3⟩).needsFullState = false ∧
    CashFlowLedger.run (endowmentStrategy ⟨7 / 10, 3 / 10, 3⟩) ⟨1000000, 1 / 2, 50, 42⟩
        noTax (fun _ _ => 5 / 100) 2 2 =
      ledgerRunStateNone (endowmentStrategy ⟨7 / 10, 3 / 10, 3⟩) ⟨1000000, 1 / 2, 50, 42⟩
        noTax (fun _ _ => 5 / 100) 2 2 :=
  ⟨rfl,
    run_passes_none_to_all_shipped_strategies.2.2.2.2.2.2
      (endowmentStrategy ⟨7 / 10, 3 / 10, 3⟩) rfl ⟨1000000, 1 / 2, 50, 42⟩
      noTax (fun _ _ => 5 / 100) 2 2⟩

/-- The year transition ends with `max 0 (..)`, so it is non-negative. -/
theorem stepBalance_nonneg (ff : ℚ) (tax : ℚ → ℚ → ℚ) (bal w ret : ℚ) :
    0 ≤ stepBalance ff tax bal w ret :=
  le_max_left 0 _

/-- Every balance recorded by the full-history year loop is non-negative. -/
theorem runYears_balances_nonneg (S : Strategy) (p : PortfolioParams)
    (tax : ℚ → ℚ → ℚ) (ret : ℕ → ℚ) (ff : ℚ) :
    ∀ (n yearIdx : ℕ) (bal : ℚ) (s : S.σ),
      ((runYears S p tax ret ff n yearIdx bal s).1.all
        (fun st => decide (0 ≤ st.balance))) = true := by
  intro n
  induction n with
  | zero => intro yearIdx bal s; rfl
  | succ m ih =>
    intro yearIdx bal s
    simp only [runYears, List.all_cons, Bool.and_eq_true, decide_eq_true_eq]
    exact ⟨stepBalance_nonneg _ _ _ _ _, ih _ _ _⟩

/-- Every balance recorded by the vectorized year loop is non-negative. -/
theorem vecYears_balances_nonneg (S : Strategy) (p : PortfolioParams)
    (tax : ℚ → ℚ → ℚ) (ret : ℕ → ℚ) (ff : ℚ) :
    ∀ (n yearIdx : ℕ) (bal : ℚ) (s : S.σ),
      ((vecYears S p tax ret ff n yearIdx bal s).1.all
        (fun x => decide (0 ≤ x))) = true := by
  intro n
  induction n with
  | zero => intro yearIdx bal s; rfl
  | succ m ih =>
    intro yearIdx bal s
    simp only [vecYears, List.all_cons, Bool.and_eq_true, decide_eq_true_eq]
    exact ⟨stepBalance_nonneg _ _ _ _ _, ih _ _ _⟩

/-- Path-level: all full-history balances are non-negative. -/
theorem runPaths_balances_nonneg (S : Strategy) (p : PortfolioParams)
    (tax : ℚ → ℚ → ℚ) (rets : ℕ → ℕ → ℚ) (ff : ℚ) (years : ℕ) :
    ∀ (n pathIdx : ℕ) (s : S.σ),
      statesNonneg (runPaths S p tax rets ff years n pathIdx s).1 = true := by
  intro n
  induction n with
  | zero => intro pathIdx s; rfl
  | succ m ih =>
    intro pathIdx s
    simp only [runPaths, statesNonneg, List.all_cons, Bool.and_eq_true]
    exact ⟨runYears_balances_nonneg S p tax (rets pathIdx) ff years 0 p.init_balance s,
      ih (pathIdx + 1) _⟩

/-- Path-level: all vectorized balances are non-negative. -/
theorem vecPaths_balances_nonneg (S : Strategy) (p : PortfolioParams)
    (tax : ℚ → ℚ → ℚ) (rets : ℕ → ℕ → ℚ) (ff : ℚ) (years : ℕ) :
    ∀ (n pathIdx : ℕ) (s : S.σ),
      matNonneg (vecPaths S p tax rets ff years n pathIdx s).1 = true := by
  intro n
  induction n with
  | zero => intro pathIdx s; rfl
  | succ m ih =>
    intro pathIdx s
    simp only [vecPaths, matNonneg, List.all_cons, Bool.and_eq_true]
    exact ⟨vecYears_balances_nonneg S p tax (rets pathIdx) ff years 0 p.init_balance s,
      ih (pathIdx + 1) _⟩

/-- C3: for valid parameters, any strategy, any non-negative tax function,
positive years and paths and any real returns matrix, every balance
stored in a `YearState` produced by `CashFlowLedger.run` and every entry
of the `run_simulation_vectorized` matrix is non-negative (the zero floor
of the year transition is a hard invariant). -/
theorem engine_balances_never_negative (S : Strategy) (p : PortfolioParams)
    (tax : ℚ → ℚ → ℚ) (rets : ℕ → ℕ → ℚ) (years paths : ℕ)
    (hp : p.Valid) (htax : ∀ w b, 0 ≤ tax w b)
    (hy : 0 < years) (hpa : 0 < paths) :
    statesNonneg (CashFlowLedger.run S p tax rets years paths) = true ∧
    matNonneg (runSimulationVectorized S p tax rets years paths) = true :=
  ⟨runPaths_balances_nonneg S p tax rets _ years paths 0 S.init,
    vecPaths_balances_nonneg S p tax rets _ years paths 0 S.init⟩

/-- Witness for C3: the Guyton-Klinger strategy with valid parameters,
taxes of 10 percent of the withdrawal, two paths and two years of a
negative-return market. -/
theorem engine_balances_never_negative_witness :
    PortfolioParams.Valid ⟨1000000, 1 / 2, 50, 42⟩ ∧
    (∀ w b : ℚ, 0 ≤ (fun w1 _ => |w1| / 10) w b) ∧
    (0 : ℕ) < 2 ∧
    statesNonneg (CashFlowLedger.run (guytonKlingerStrategy (5 / 100) (2 / 10) (1 / 10) (1 / 10))
        ⟨1000000, 1 / 2, 50, 42⟩ (fun w1 _ => |w1| / 10) (fun _ _ => -(1 / 2)) 2 2) = true ∧
    matNonneg (runSimulationVectorized (guytonKlingerStrategy (5 / 100) (2 / 10) (1 / 10) (1 / 10))
        ⟨1000000, 1 / 2, 50, 42⟩ (fun w1 _ => |w1| / 10) (fun _ _ => -(1 / 2)) 2 2) = true := by
  have h := engine_balances_never_negative
    (guytonKlingerStrategy (5 / 100) (2 / 10) (1 / 10) (1 / 10))
    ⟨1000000, 1 / 2, 50, 42⟩ (fun w1 _ => |w1| / 10) (fun _ _ => -(1 / 2)) 2 2
    (by norm_num [PortfolioParams.Valid]) (fun w b => by positivity)
    (by norm_num) (by norm_num)
  exact ⟨by norm_num [PortfolioParams.Valid], fun w b => by positivity, by norm_num, h.1, h.2⟩

/-- C4: for any model of the numpy pseudo-random machinery, any mode and
any shape, two independently constructed `MarketSimulator` instances
whose parameters share the same seed produce identical matrices on their
first `generate` call: the first batch of returns is a pure deterministic
function of seed, mode and shape (the bootstrap historical pool comes
from the fixed internal seed 12345, independent of the configured
parameters). -/
theorem generate_deterministic_in_seed (R : RNGImpl)
    (p1 p2 : PortfolioParams) (mode : MarketMode) (nPaths nYears : ℕ)
    (hseed : p1.seed = p2.seed) :
    (MarketSimulator.generate R (MarketSimulator.make R p1 mode) nPaths nYears).1 =
      (MarketSimulator.generate R (MarketSimulator.make R p2 mode) nPaths nYears).1 := by
  cases mode with
  | lognormal =>
    simp only [MarketSimulator.generate, MarketSimulator.make, hseed]
  | bootstrap =>
    simp only [MarketSimulator.generate, MarketSimulator.make, hseed, reduceIte]

/-- Witness for C4: the zero RNG model, two parameter sets differing in
everything but the seed, bootstrap mode. -/
theorem generate_deterministic_witness :
    (⟨1000000, 1 / 2, 50, 7⟩ : PortfolioParams).seed =
      (⟨250000, 9 / 10, 0, 7⟩ : PortfolioParams).seed ∧
    (MarketSimulator.generate zeroRNG
        (MarketSimulator.make zeroRNG ⟨1000000, 1 / 2, 50, 7⟩ MarketMode.bootstrap) 3 7).1 =
      (MarketSimulator.generate zeroRNG
        (MarketSimulator.make zeroRNG ⟨250000, 9 / 10, 0, 7⟩ MarketMode.bootstrap) 3 7).1 :=
  ⟨rfl,
    generate_deterministic_in_seed zeroRNG ⟨1000000, 1 / 2, 50, 7⟩ ⟨250000, 9 / 10, 0, 7⟩
      MarketMode.bootstrap 3 7 rfl⟩

/-- C7: for positive paths and a year count not divisible by 5, bootstrap
generation produces a matrix of exact shape (paths, years) whose first
`5 * (years / 5)` columns of each path are the concatenation of the drawn
5-year blocks (column `c` carries entry `c % 5` of the block drawn for
slot `c / 5` in the single batched index draw) and whose last `years % 5`
columns are individually sampled years from the flattened historical
pool (a second batched draw). -/
theorem bootstrap_shape_and_block_structure (R : RNGImpl) (rng0 : R.State)
    (hist : ℕ → ℚ) (nPaths nYears : ℕ) (hp : 0 < nPaths)
    (hrem : nYears % 5 ≠ 0) :
    (matrixToLists (generateBootstrap R rng0 hist nPaths nYears).1 nPaths nYears).length =
      nPaths ∧
    (∀ row ∈ matrixToLists (generateBootstrap R rng0 hist nPaths nYears).1 nPaths nYears,
      row.length = nYears) ∧
    (∀ pdx c, c < 5 * (nYears / 5) →
      (generateBootstrap R rng0 hist nPaths nYears).1 pdx c =
        blockReturn hist
          ((R.intMatrix rng0 0 nHistBlocks nPaths (nYears / 5)).1 pdx (c / 5)) (c % 5)) ∧
    (∀ pdx c, 5 * (nYears / 5) ≤ c → c < nYears →
      (generateBootstrap R rng0 hist nPaths nYears).1 pdx c =
        hist ((R.intMatrix
            (R.intMatrix rng0 0 nHistBlocks nPaths (nYears / 5)).2
            0 histYears nPaths (nYears % 5)).1 pdx (c - 5 * (nYears / 5)))) := by
  have hpos : 0 < nYears % 5 := Nat.pos_of_ne_zero hrem
  refine ⟨?_, ?_, ?_, ?_⟩
  · simp [matrixToLists]
  · intro row hrow
    simp only [matrixToLists, List.mem_map] at hrow
    obtain ⟨i, _, rfl⟩ := hrow
    simp
  · intro pdx c hc
    simp only [generateBootstrap, if_pos hpos]
    rw [if_pos hc]
  · intro pdx c hc1 hc2
    simp only [generateBootstrap, if_pos hpos]
    rw [if_neg (by omega), if_pos hc2]

/-- Witness for C7: one path, 37 years (not divisible by 5) under the
zero RNG model; in particular the shape is (1, 37) and the last
37 - 35 = 2 columns come from the individual-year draw. -/
theorem bootstrap_shape_witness :
    (0 : ℕ) < 1 ∧ (37 : ℕ) % 5 ≠ 0 ∧
    ((matrixToLists (generateBootstrap zeroRNG () (fun i => i) 1 37).1 1 37).length = 1 ∧
      (∀ row ∈ matrixToLists (generateBootstrap zeroRNG () (fun i => i) 1 37).1 1 37,
        row.length = 37) ∧
      (∀ pdx c, c < 5 * (37 / 5) →
        (generateBootstrap zeroRNG () (fun i => i) 1 37).1 pdx c =
          blockReturn (fun i => i)
            ((zeroRNG.intMatrix () 0 nHistBlocks 1 (37 / 5)).1 pdx (c / 5)) (c % 5)) ∧
      (∀ pdx c, 5 * (37 / 5) ≤ c → c < 37 →
        (generateBootstrap zeroRNG () (fun i => i) 1 37).1 pdx c =
          (fun i => (i : ℚ)) ((zeroRNG.intMatrix
              (zeroRNG.intMatrix () 0 nHistBlocks 1 (37 / 5)).2
              0 histYears 1 (37 % 5)).1 pdx (c - 5 * (37 / 5))))) :=
  ⟨by norm_num, by norm_num,
    bootstrap_shape_and_block_structure zeroRNG () (fun i => i) 1 37
      (by norm_num) (by norm_num)⟩

/-- C6: once the base withdrawal is fixed (`_base_withdrawal = b`), a
stateful `GuytonKlingerStrategy.calculate_withdrawal` call updates the
cumulative inflation multiplier by `1 + inflation` exactly for the first
stateful call or a year consecutive to the last seen one (frozen
otherwise, see `gkNewCumInfl`), records the state's year, returns 0 for a
non-positive balance, cuts the inflation-adjusted base by `cut_pct`
exactly when the current rate exceeds `initial_rate * (1 + guard_pct)`
and the balance is at most 1.2 times the initial balance (persisting the
cut divided by the multiplier as the new base), raises it by `raise_pct`
exactly when the current rate is below `initial_rate * (1 - guard_pct)`
and the balance is at least 0.8 times the initial balance (likewise
persisted), and returns the unmodified inflation-adjusted base in every
other case. -/
theorem gk_guardrail_cases (r g rp cp : ℚ) (hv : gkValid r g rp cp)
    (st : GKState) (b : ℚ) (hb : st.base = some b) (s : YearState)
    (p : PortfolioParams) :
    ((gkCalc (mkGKConfig r g rp cp) st (some s) p).2.cumInfl = gkNewCumInfl st s ∧
      (gkCalc (mkGKConfig r g rp cp) st (some s) p).2.lastYear = some s.year) ∧
    (s.balance ≤ 0 → (gkCalc (mkGKConfig r g rp cp) st (some s) p).1 = 0) ∧
    (0 < s.balance →
      (b * gkNewCumInfl st s / s.balance > r * (1 + g) →
        s.balance ≤ p.init_balance * (12 / 10) →
        (gkCalc (mkGKConfig r g rp cp) st (some s) p).1 =
            b * gkNewCumInfl st s * (1 - cp) ∧
          (gkCalc (mkGKConfig r g rp cp) st (some s) p).2.base =
            some (b * gkNewCumInfl st s * (1 - cp) / gkNewCumInfl st s)) ∧
      (b * gkNewCumInfl st s / s.balance > r * (1 + g) →
        p.init_balance * (12 / 10) < s.balance →
        (gkCalc (mkGKConfig r g rp cp) st (some s) p).1 = b * gkNewCumInfl st s ∧
          (gkCalc (mkGKConfig r g rp cp) st (some s) p).2.base = some b) ∧
      (b * gkNewCumInfl st s / s.balance < r * (1 - g) →
        p.init_balance * (8 / 10) ≤ s.balance →
        (gkCalc (mkGKConfig r g rp cp) st (some s) p).1 =
            b * gkNewCumInfl st s * (1 + rp) ∧
          (gkCalc (mkGKConfig r g rp cp) st (some s) p).2.base =
            some (b * gkNewCumInfl st s * (1 + rp) / gkNewCumInfl st s)) ∧
      (b * gkNewCumInfl st s / s.balance < r * (1 - g) →
        s.balance < p.init_balance * (8 / 10) →
        (gkCalc (mkGKConfig r g rp cp) st (some s) p).1 = b * gkNewCumInfl st s ∧
          (gkCalc (mkGKConfig r g rp cp) st (some s) p).2.base = some b) ∧
      (r * (1 - g) ≤ b * gkNewCumInfl st s / s.balance →
        b * gkNewCumInfl st s / s.balance ≤ r * (1 + g) →
        (gkCalc (mkGKConfig r g rp cp) st (some s) p).1 = b * gkNewCumInfl st s ∧
          (gkCalc (mkGKConfig r g rp cp) st (some s) p).2.base = some b)) := by
  have hlu : r * (1 - g) < r * (1 + g) := by nlinarith [hv.1, hv.2.2.1]
  simp only [gkCalc, mkGKConfig, hb]
  refine ⟨by split_ifs <;> exact ⟨rfl, rfl⟩, ?_, ?_⟩
  · intro hbal
    rw [if_pos hbal]
  · intro hbal
    rw [if_neg (not_le.mpr hbal)]
    refine ⟨?_, ?_, ?_, ?_, ?_⟩
    · intro h1 h2
      rw [if_pos h1, if_pos h2]
      exact ⟨rfl, rfl⟩
    · intro h1 h2
      rw [if_pos h1, if_neg (not_le.mpr h2)]
      exact ⟨rfl, rfl⟩
    · intro h1 h2
      rw [if_neg (by intro hcon; exact absurd h1 (not_lt.mpr (le_of_lt (lt_trans hlu hcon)))),
        if_pos h1, if_pos h2]
      exact ⟨rfl, rfl⟩
    · intro h1 h2
      rw [if_neg (by intro hcon; exact absurd h1 (not_lt.mpr (le_of_lt (lt_trans hlu hcon)))),
        if_pos h1, if_neg (not_le.mpr h2)]
      exact ⟨rfl, rfl⟩
    · intro h1 h2
      rw [if_neg (not_lt.mpr h2), if_neg (not_lt.mpr h1)]
      exact ⟨rfl, rfl⟩

/-- Witness for C6: default parameters, base 50,000 fixed, a consecutive
year with balance 400,000 (rate 0.125 above the 0.06 upper guardrail and
balance at most 1.2 million): the call cuts to 45,000 and persists the
new base. -/
theorem gk_guardrail_cases_witness :
    gkValid (5 / 100) (2 / 10) (1 / 10) (1 / 10) ∧
    (⟨some 50000, 1, some 2024⟩ : GKState).base = some 50000 ∧
    (gkCalc (mkGKConfig (5 / 100) (2 / 10) (1 / 10) (1 / 10))
        ⟨some 50000, 1, some 2024⟩ (some ⟨2025, 66, 400000, 0, none⟩)
        ⟨1000000, 1 / 2, 50, 42⟩).1 = 45000 := by
  have hv : gkValid (5 / 100) (2 / 10) (1 / 10) (1 / 10) := by norm_num [gkValid]
  have hci : gkNewCumInfl ⟨some 50000, 1, some 2024⟩ ⟨2025, 66, 400000, 0, none⟩ = 1 := by
    with_unfolding_all rfl
  have h := (gk_guardrail_cases (5 / 100) (2 / 10) (1 / 10) (1 / 10) hv
      ⟨some 50000, 1, some 2024⟩ 50000 rfl ⟨2025, 66, 400000, 0, none⟩
      ⟨1000000, 1 / 2, 50, 42⟩).2.2 (by norm_num)
  have hcut := (h.1 (by rw [hci]; norm_num) (by norm_num)).1
  refine ⟨hv, rfl, ?_⟩
  rw [hcut, hci]
  norm_num

/-- Key selection over the default allocation keys: the chosen key
minimizes the distance to the truncated percentage, and ties go to the
earlier (smaller) key, as Python `min` keeps the first minimum. -/
theorem closestKey_default_spec (ep : ℤ) (h0 : 0 ≤ ep) (h1 : ep ≤ 100) :
    ∀ j ∈ ([20, 40, 60, 80] : List ℤ),
      pyAbs ((closestKey ep [20, 40, 60, 80]).getD 0 - ep) ≤ pyAbs (j - ep) ∧
      (pyAbs (j - ep) = pyAbs ((closestKey ep [20, 40, 60, 80]).getD 0 - ep) →
        (closestKey ep [20, 40, 60, 80]).getD 0 ≤ j) := by
  interval_cases ep <;> decide

/-- Truncation of a rational in `[0, 100]` lands in `[0, 100]`. -/
theorem pyTrunc_bounds (q : ℚ) (h0 : 0 ≤ q) (h1 : q ≤ 100) :
    0 ≤ pyTrunc q ∧ pyTrunc q ≤ 100 := by
  unfold pyTrunc
  rw [if_pos h0]
  constructor
  · exact Int.le_floor.mpr (by exact_mod_cast h0)
  · have h2 := Int.floor_le_floor h1
    have h3 : (⌊(100 : ℚ)⌋ : ℤ) = 100 := by norm_num
    omega

/-- C10 (amended): for every equity fraction in `[0, 1]`,
`VariablePercentageWithdrawal` with the default tables selects the table
whose allocation key (among 20, 40, 60, 80) is numerically closest to the
Python integer truncation `int(equity_pct * 100)`, ties resolved toward
the smaller key, and the returned withdrawal equals the observed balance
times the age-based percentage looked up in that table.  (As the C10
counterexample shows, the claim read with distances to the untruncated
`equity_pct * 100` fails.) -/
theorem vpw_selects_closest_to_truncation :
    ∀ q : ℚ, 0 ≤ q → q ≤ 1 →
      ∃ k : ℤ, vpwKey defaultVpwTables q = some k ∧
        (∀ j ∈ ([20, 40, 60, 80] : List ℤ),
          pyAbs (k - pyTrunc (q * 100)) ≤ pyAbs (j - pyTrunc (q * 100)) ∧
          (pyAbs (j - pyTrunc (q * 100)) = pyAbs (k - pyTrunc (q * 100)) → k ≤ j)) ∧
        (∀ (st : Option YearState) (p : PortfolioParams), p.equity_pct = q →
          vpwCalc defaultVpwTables st p =
            (getWithdrawalPct (vpwTableFor defaultVpwTables k) (vpwObservedAge st)).map
              (fun pct => vpwObservedBalance st p * pct)) := by
  intro q h0 h1
  have hb := pyTrunc_bounds (q * 100) (by positivity) (by nlinarith)
  have hkeys : defaultVpwTables.map (fun e => e.1) = [20, 40, 60, 80] := rfl
  refine ⟨(closestKey (pyTrunc (q * 100)) [20, 40, 60, 80]).getD 0, ?_, ?_, ?_⟩
  · simp only [vpwKey, hkeys]
    rfl
  · exact closestKey_default_spec (pyTrunc (q * 100)) hb.1 hb.2
  · intro st p hq
    simp only [vpwCalc, vpwKey, hkeys, hq]
    set k0 := (closestKey (pyTrunc (q * 100)) [20, 40, 60, 80]).getD 0 with hk0
    have hsome : closestKey (pyTrunc (q * 100)) [20, 40, 60, 80] = some k0 := rfl
    rw [hsome]
    simp only [vpwTableFor]
    cases hfind : defaultVpwTables.find? (fun e => e.1 == k0) with
    | none => rfl
    | some e =>
      show (match getWithdrawalPct e.2 (vpwObservedAge st) with
        | some pct => some (vpwObservedBalance st p * pct)
        | none => none) =
        Option.map (fun pct => vpwObservedBalance st p * pct)
          (getWithdrawalPct e.2 (vpwObservedAge st))
      cases getWithdrawalPct e.2 (vpwObservedAge st) with
      | none => rfl
      | some pct => rfl

/-- Witness for C10 (amended) at an equity fraction of one half (key 40,
a tie at distance 10 between keys 40 and 60 resolved to 40). -/
theorem vpw_selects_closest_witness :
    (0 : ℚ) ≤ 1 / 2 ∧ (1 / 2 : ℚ) ≤ 1 ∧
    (∃ k : ℤ, vpwKey defaultVpwTables (1 / 2) = some k ∧
      (∀ j ∈ ([20, 40, 60, 80] : List ℤ),
        pyAbs (k - pyTrunc ((1 / 2) * 100)) ≤ pyAbs (j - pyTrunc ((1 / 2) * 100)) ∧
        (pyAbs (j - pyTrunc ((1 / 2) * 100)) = pyAbs (k - pyTrunc ((1 / 2) * 100)) → k ≤ j)) ∧
      (∀ (st : Option YearState) (p : PortfolioParams), p.equity_pct = 1 / 2 →
        vpwCalc defaultVpwTables st p =
          (getWithdrawalPct (vpwTableFor defaultVpwTables k) (vpwObservedAge st)).map
            (fun pct => vpwObservedBalance st p * pct))) :=
  ⟨by norm_num, by norm_num,
    vpw_selects_closest_to_truncation (1 / 2) (by norm_num) (by norm_num)⟩

/-- C10 counterexample: at the valid equity fraction 0.309 the code
truncates 30.9 to 30 and, on the resulting tie between keys 20 and 40,
selects table 20 (withdrawing 4.4 percent at age 65, 44,000 on a million),
although key 40 is strictly closest to 30.9 itself and would give 4.0
percent, 40,000; so the withdrawal is not the one from the table
numerically closest to `equity_pct * 100`. -/
theorem vpw_key_not_closest_counterexample :
    vpwKey defaultVpwTables (309 / 1000) = some 20 ∧
    |(40 : ℚ) - (309 / 1000) * 100| < |(20 : ℚ) - (309 / 1000) * 100| ∧
    vpwCalc defaultVpwTables (some ⟨2024, 65, 1000000, 0, none⟩)
        ⟨1000000, 309 / 1000, 0, 42⟩ = some 44000 ∧
    getWithdrawalPct vpwTable40 65 = some (4 / 100) ∧
    (44000 : ℚ) ≠ 1000000 * (4 / 100) := by
  refine ⟨by with_unfolding_all rfl, ?_, by with_unfolding_all rfl,
    by with_unfolding_all rfl, by norm_num⟩
  rw [abs_of_pos (by norm_num), abs_of_neg (by norm_num)]
  norm_num

/-- The fold of the key-selection `min` only ever returns one of its
candidates. -/
theorem closestKey_foldl_mem (ep : ℤ) :
    ∀ (ks : List ℤ) (k0 : ℤ),
      ks.foldl (fun best x => if pyAbs (x - ep) < pyAbs (best - ep) then x else best) k0 ∈
        k0 :: ks := by
  intro ks
  induction ks with
  | nil => intro k0; simp [List.foldl]
  | cons x xs ih =>
    intro k0
    simp only [List.foldl]
    rcases List.mem_cons.mp (ih (if pyAbs (x - ep) < pyAbs (k0 - ep) then x else k0)) with h | h
    · by_cases hc : pyAbs (x - ep) < pyAbs (k0 - ep)
      · rw [if_pos hc] at h ⊢
        rw [h]
        exact List.mem_cons.mpr (Or.inr (List.mem_cons.mpr (Or.inl rfl)))
      · rw [if_neg hc] at h ⊢
        rw [h]
        exact List.mem_cons.mpr (Or.inl rfl)
    · exact List.mem_cons.mpr (Or.inr (List.mem_cons.mpr (Or.inr h)))

/-- The selected equity key is one of the table keys. -/
theorem closestKey_mem (ep : ℤ) (l : List ℤ) (k : ℤ)
    (h : closestKey ep l = some k) : k ∈ l := by
  cases l with
  | nil => exact absurd h (by simp [closestKey])
  | cons k0 ks =>
    simp only [closestKey, Option.some.injEq] at h
    rw [← h]
    exact closestKey_foldl_mem ep ks k0

/-- A successful age lookup returns a value stored in the table. -/
theorem tableLookup_mem (t : List (ℤ × ℚ)) (age : ℤ) (v : ℚ)
    (h : tableLookup t age = some v) : ∃ pr ∈ t, pr.2 = v := by
  unfold tableLookup at h
  cases hf : t.find? (fun e => e.1 == age) with
  | none => rw [hf] at h; exact absurd h (by simp)
  | some e =>
    rw [hf] at h
    simp only [Option.map_some', Option.some.injEq] at h
    exact ⟨e, List.mem_of_find?_eq_some hf, h⟩

/-- Insertion preserves membership (backwards). -/
theorem mem_insertPair (e x : ℤ × ℚ) :
    ∀ l, x ∈ insertPair e l → x = e ∨ x ∈ l := by
  intro l
  induction l with
  | nil => intro h; simpa [insertPair] using h
  | cons f fs ih =>
    intro h
    simp only [insertPair] at h
    by_cases hc : e.1 ≤ f.1
    · rw [if_pos hc] at h
      rcases List.mem_cons.mp h with h1 | h1
      · exact Or.inl h1
      · exact Or.inr h1
    · rw [if_neg hc] at h
      rcases List.mem_cons.mp h with h1 | h1
      · exact Or.inr (List.mem_cons.mpr (Or.inl h1))
      · rcases ih h1 with h2 | h2
        · exact Or.inl h2
        · exact Or.inr (List.mem_cons.mpr (Or.inr h2))

/-- Sorting preserves membership (backwards). -/
theorem mem_sortPairs (x : ℤ × ℚ) :
    ∀ t, x ∈ sortPairs t → x ∈ t := by
  intro t
  induction t with
  | nil => intro h; simpa [sortPairs] using h
  | cons e es ih =>
    intro h
    simp only [sortPairs] at h
    rcases mem_insertPair e x (sortPairs es) h with h1 | h1
    · exact List.mem_cons.mpr (Or.inl h1)
    · exact List.mem_cons.mpr (Or.inr (ih h1))

/-- The interpolation scan stays non-negative on tables of non-negative
rates: the bracketed linear interpolation is a convex combination, the
degenerate equal-ages bracket collapses to its left rate, and the final
fallback is 0.04. -/
theorem interpScan_nonneg (age : ℤ) :
    ∀ (l : List (ℤ × ℚ)), (∀ pr ∈ l, 0 ≤ pr.2) → 0 ≤ interpScan age l
  | [] , _ => by norm_num [interpScan]
  | [e], _ => by norm_num [interpScan]
  | (a1, r1) :: (a2, r2) :: rest, h => by
    have hr1 : 0 ≤ r1 := h (a1, r1) (by simp)
    have hr2 : 0 ≤ r2 := h (a2, r2) (by simp)
    have hrest : ∀ pr ∈ (a2, r2) :: rest, 0 ≤ pr.2 := by
      intro pr hpr
      exact h pr (List.mem_cons.mpr (Or.inr hpr))
    simp only [interpScan]
    by_cases hc : a1 ≤ age ∧ age ≤ a2
    · rw [if_pos hc]
      have hq1 : (a1 : ℚ) ≤ (age : ℚ) := by exact_mod_cast hc.1
      have hq2 : (age : ℚ) ≤ (a2 : ℚ) := by exact_mod_cast hc.2
      rcases eq_or_lt_of_le (le_trans hq1 hq2) with heq | hlt
      · have hw : ((age : ℚ) - (a1 : ℚ)) / ((a2 : ℚ) - (a1 : ℚ)) = 0 := by
          rw [← heq, sub_self, div_zero]
        rw [hw]
        have : 0 ≤ min (r1 + 0 * (r2 - r1)) 10 := by
          rw [zero_mul, add_zero]
          exact le_min hr1 (by norm_num)
        positivity
      · have hden : (0 : ℚ) < (a2 : ℚ) - (a1 : ℚ) := by linarith
        have hw0 : 0 ≤ ((age : ℚ) - (a1 : ℚ)) / ((a2 : ℚ) - (a1 : ℚ)) :=
          div_nonneg (by linarith) (le_of_lt hden)
        have hw1 : ((age : ℚ) - (a1 : ℚ)) / ((a2 : ℚ) - (a1 : ℚ)) ≤ 1 :=
          (div_le_one hden).mpr (by linarith)
        have hmix : 0 ≤ r1 + ((age : ℚ) - (a1 : ℚ)) / ((a2 : ℚ) - (a1 : ℚ)) * (r2 - r1) := by
          nlinarith
        have : 0 ≤ min (r1 + ((age : ℚ) - (a1 : ℚ)) / ((a2 : ℚ) - (a1 : ℚ)) * (r2 - r1)) 10 :=
          le_min hmix (by norm_num)
        positivity
    · rw [if_neg hc]
      exact interpScan_nonneg age ((a2, r2) :: rest) hrest

/-- A successful `_get_withdrawal_percentage` lookup on a table of
non-negative rates is non-negative. -/
theorem getWithdrawalPct_nonneg (t : List (ℤ × ℚ)) (age : ℤ) (r : ℚ)
    (hvals : ∀ pr ∈ t, 0 ≤ pr.2)
    (h : getWithdrawalPct t age = some r) : 0 ≤ r := by
  have hclamp : ∀ (a : ℤ) (v : ℚ), tableLookup t a = some v → 0 ≤ min v 10 / 100 := by
    intro a v hv
    obtain ⟨pr, hpr, hpr2⟩ := tableLookup_mem t a v hv
    have := hvals pr hpr
    have : 0 ≤ min v 10 := le_min (hpr2 ▸ this) (by norm_num)
    positivity
  unfold getWithdrawalPct at h
  split at h
  next v heq =>
    simp only [Option.some.injEq] at h
    exact h ▸ hclamp age v heq
  next heq =>
    split at h
    next minAge maxAge hmm1 hmm2 =>
      split at h
      next h1 =>
        rw [Option.map_eq_some'] at h
        obtain ⟨v, hv, hr⟩ := h
        exact hr ▸ hclamp minAge v hv
      next h1 =>
        split at h
        next h2 =>
          rw [Option.map_eq_some'] at h
          obtain ⟨v, hv, hr⟩ := h
          exact hr ▸ hclamp maxAge v hv
        next h2 =>
          simp only [Option.some.injEq] at h
          refine h ▸ interpScan_nonneg age (sortPairs t) ?_
          intro pr hpr
          exact hvals pr (mem_sortPairs pr t hpr)
    next hmm1 hmm2 => exact absurd h (by simp)

/-- On a table with a minimal and maximal key both present as entries,
`_get_withdrawal_percentage` always succeeds. -/
theorem getWithdrawalPct_total (t : List (ℤ × ℚ)) (age : ℤ)
    (m1 M1 : ℤ) (v1 v2 : ℚ)
    (hmin : (t.map (fun e => e.1)).min? = some m1)
    (hmax : (t.map (fun e => e.1)).max? = some M1)
    (hv1 : tableLookup t m1 = some v1)
    (hv2 : tableLookup t M1 = some v2) :
    ∃ r, getWithdrawalPct t age = some r := by
  unfold getWithdrawalPct
  cases h : tableLookup t age with
  | some v => exact ⟨_, rfl⟩
  | none =>
    rw [hmin, hmax]
    show ∃ r, (if age < m1 then Option.map (fun v => min v 10 / 100) (tableLookup t m1)
      else if M1 < age then Option.map (fun v => min v 10 / 100) (tableLookup t M1)
      else some (interpScan age (sortPairs t))) = some r
    by_cases h1 : age < m1
    · rw [if_pos h1, hv1]
      exact ⟨_, rfl⟩
    · rw [if_neg h1]
      by_cases h2 : M1 < age
      · rw [if_pos h2, hv2]
        exact ⟨_, rfl⟩
      · rw [if_neg h2]
        exact ⟨_, rfl⟩

/-- A fresh push into a positive-capacity window is the singleton history. -/
theorem pushWindow_start (w : ℕ) (hw : 1 ≤ w) (x : ℚ) :
    pushWindow w [] x = [x] := by
  unfold pushWindow
  simp [Nat.sub_eq_zero_of_le hw]

/-- Common step for the VPW part of C5: with the key resolved to a
concrete table whose rates are all non-negative and whose boundary ages
are present, `calculate_withdrawal` succeeds and returns the observed
balance times a non-negative percentage. -/
theorem vpwCalc_default_some_nonneg (st : Option YearState) (p : PortfolioParams)
    (hbal : 0 ≤ vpwObservedBalance st p) (k m1 M1 : ℤ) (t : List (ℤ × ℚ)) (v1 v2 : ℚ)
    (hk : vpwKey defaultVpwTables p.equity_pct = some k)
    (hfind : defaultVpwTables.find? (fun e => e.1 == k) = some (k, t))
    (hall : (t.all fun pr => decide (0 ≤ pr.2)) = true)
    (hmin : (t.map (fun e => e.1)).min? = some m1)
    (hmax : (t.map (fun e => e.1)).max? = some M1)
    (hv1 : tableLookup t m1 = some v1)
    (hv2 : tableLookup t M1 = some v2) :
    ∃ w, vpwCalc defaultVpwTables st p = some w ∧ vpwDefaultCalc st p = w ∧ 0 ≤ w := by
  obtain ⟨r, hr⟩ := getWithdrawalPct_total t (vpwObservedAge st) m1 M1 v1 v2 hmin hmax hv1 hv2
  have hrn : 0 ≤ r := getWithdrawalPct_nonneg t (vpwObservedAge st) r
    (fun pr hpr => of_decide_eq_true (List.all_eq_true.mp hall pr hpr)) hr
  have step1 : vpwCalc defaultVpwTables st p =
      (match getWithdrawalPct t (vpwObservedAge st) with
        | some pct => some (vpwObservedBalance st p * pct)
        | none => none) := by
    unfold vpwCalc
    rw [hk]
    show (match defaultVpwTables.find? (fun e => e.1 == k) with
      | none => none
      | some e =>
        match getWithdrawalPct e.2 (vpwObservedAge st) with
        | some pct => some (vpwObservedBalance st p * pct)
        | none => none) = _
    rw [hfind]
  have hcalc : vpwCalc defaultVpwTables st p = some (vpwObservedBalance st p * r) := by
    rw [step1, hr]
  refine ⟨vpwObservedBalance st p * r, hcalc, ?_, mul_nonneg hbal hrn⟩
  unfold vpwDefaultCalc
  rw [hcalc]

/-- C5 (amended): every shipped policy, freshly constructed with valid
parameters, returns a finite non-negative withdrawal (without raising)
for an absent state or for a pydantic-valid `YearState` whose balance is
non-negative and whose inflation is at least -1, together with valid
portfolio parameters.  Finiteness is inherent to the rational model.
(As the C5 counterexample shows, pydantic validation alone does not
bound the balance or inflation fields, and a validated state with a
negative balance makes `ConstantPercentageStrategy` return a negative
withdrawal, so the claim as stated fails.) -/
theorem policies_return_nonneg :
    (∀ (st : Option YearState) (p : PortfolioParams), p.Valid → ValidObservedState st →
      0 ≤ (dummyStrategy.calcW dummyStrategy.init st p).1) ∧
    (∀ (st : Option YearState) (p : PortfolioParams), p.Valid → ValidObservedState st →
      0 ≤ (fourPercentRule.calcW fourPercentRule.init st p).1) ∧
    (∀ (q : ℚ) (st : Option YearState) (p : PortfolioParams),
      constantPercentageValid q → p.Valid → ValidObservedState st →
      0 ≤ ((constantPercentageStrategy q).calcW (constantPercentageStrategy q).init st p).1) ∧
    (∀ (cfg : EndowmentConfig) (st : Option YearState) (p : PortfolioParams),
      cfg.Valid → p.Valid → ValidObservedState st →
      0 ≤ ((endowmentStrategy cfg).calcW (endowmentStrategy cfg).init st p).1) ∧
    (∀ (a b c d : ℚ) (st : Option YearState) (p : PortfolioParams),
      gkValid a b c d → p.Valid → ValidObservedState st →
      0 ≤ ((guytonKlingerStrategy a b c d).calcW (guytonKlingerStrategy a b c d).init st p).1) ∧
    (∀ (st : Option YearState) (p : PortfolioParams), p.Valid → ValidObservedState st →
      ∃ w, vpwCalc defaultVpwTables st p = some w ∧
        (vpwStrategy.calcW vpwStrategy.init st p).1 = w ∧ 0 ≤ w) := by
  refine ⟨?_, ?_, ?_, ?_, ?_, ?_⟩
  · intro st p _ _
    exact le_refl 0
  · intro st p hp hst
    cases st with
    | none => exact mul_nonneg (le_of_lt hp.1) (by norm_num)
    | some s =>
      exact mul_nonneg (mul_nonneg (le_of_lt hp.1) (by norm_num)) hst.2.2
  · intro q st p hq hp hst
    cases st with
    | none => exact mul_nonneg (le_of_lt hp.1) hq.1
    | some s => exact mul_nonneg hst.2.1 hq.1
  · intro cfg st p hcfg hp hst
    have hw := hcfg.2.2.2.2.2
    have ha := hcfg.1
    have hb := hcfg.2.2.1
    cases st with
    | none =>
      show 0 ≤ (endowmentCalc cfg [] none p).1
      unfold endowmentCalc
      simp only [pushWindow_start cfg.window hw]
      norm_num
      exact add_nonneg (mul_nonneg ha (le_of_lt hp.1)) (mul_nonneg hb (le_of_lt hp.1))
    | some s =>
      show 0 ≤ (endowmentCalc cfg [] (some s) p).1
      unfold endowmentCalc
      simp only [pushWindow_start cfg.window hw]
      norm_num
      exact add_nonneg (mul_nonneg ha hst.2.1) (mul_nonneg hb hst.2.1)
  · intro a b c d st p hv hp hst
    cases st with
    | none =>
      show 0 ≤ p.init_balance * a
      exact mul_nonneg (le_of_lt hp.1) (le_of_lt hv.1)
    | some s =>
      show 0 ≤ (gkCalc (mkGKConfig a b c d) gkInit (some s) p).1
      have hadj : 0 ≤ p.init_balance * a * (1 + s.inflation) :=
        mul_nonneg (mul_nonneg (le_of_lt hp.1) (le_of_lt hv.1)) hst.2.2
      have hcut : (0 : ℚ) ≤ 1 - d := by
        have := hv.2.2.2.2.2.2.2
        linarith
      have hraise : (0 : ℚ) ≤ 1 + c := by
        have := hv.2.2.2.2.1
        linarith
      unfold gkCalc
      simp only [gkInit, mkGKConfig, gkNewCumInfl]
      split_ifs <;> simp only [one_mul] <;> nlinarith [hadj, hcut, hraise]
  · intro st p hp hst
    have hbal : 0 ≤ vpwObservedBalance st p := by
      cases st with
      | none => exact le_of_lt hp.1
      | some s => exact hst.2.1
    have hkeys : defaultVpwTables.map (fun e => e.1) = [20, 40, 60, 80] := rfl
    have hk : vpwKey defaultVpwTables p.equity_pct =
        some ((closestKey (pyTrunc (p.equity_pct * 100)) [20, 40, 60, 80]).getD 0) := rfl
    have hmem := closestKey_mem (pyTrunc (p.equity_pct * 100)) [20, 40, 60, 80]
      ((closestKey (pyTrunc (p.equity_pct * 100)) [20, 40, 60, 80]).getD 0) rfl
    have hmain : ∃ w, vpwCalc defaultVpwTables st p = some w ∧
        vpwDefaultCalc st p = w ∧ 0 ≤ w := by
      rcases List.mem_cons.mp hmem with h20 | hmem1
      · exact vpwCalc_default_some_nonneg st p hbal 20 45 95 vpwTable20 3 10
          (h20 ▸ hk) rfl (by with_unfolding_all rfl) rfl rfl
          (by with_unfolding_all rfl) (by with_unfolding_all rfl)
      rcases List.mem_cons.mp hmem1 with h40 | hmem2
      · exact vpwCalc_default_some_nonneg st p hbal 40 45 95 vpwTable40 (27 / 10) 10
          (h40 ▸ hk) rfl (by with_unfolding_all rfl) rfl rfl
          (by with_unfolding_all rfl) (by with_unfolding_all rfl)
      rcases List.mem_cons.mp hmem2 with h60 | hmem3
      · exact vpwCalc_default_some_nonneg st p hbal 60 45 95 vpwTable60 (5 / 2) 10
          (h60 ▸ hk) rfl (by with_unfolding_all rfl) rfl rfl
          (by with_unfolding_all rfl) (by with_unfolding_all rfl)
      rcases List.mem_cons.mp hmem3 with h80 | hmem4
      · exact vpwCalc_default_some_nonneg st p hbal 80 45 95 vpwTable80 (23 / 10) 10
          (h80 ▸ hk) rfl (by with_unfolding_all rfl) rfl rfl
          (by with_unfolding_all rfl) (by with_unfolding_all rfl)
      · exact absurd hmem4 (by simp)
    obtain ⟨w, hw1, hw2, hw3⟩ := hmain
    exact ⟨w, hw1, hw2, hw3⟩

/-- Witness for C5 (amended): the constant-percentage policy at 5 percent
on a valid state with balance 500,000. -/
theorem policies_return_nonneg_witness :
    constantPercentageValid (1 / 20) ∧
    PortfolioParams.Valid ⟨1000000, 1 / 2, 50, 42⟩ ∧
    ValidObservedState (some ⟨2025, 66, 500000, 0, none⟩) ∧
    0 ≤ ((constantPercentageStrategy (1 / 20)).calcW (constantPercentageStrategy (1 / 20)).init
      (some ⟨2025, 66, 500000, 0, none⟩) ⟨1000000, 1 / 2, 50, 42⟩).1 :=
  ⟨by norm_num [constantPercentageValid],
    by norm_num [PortfolioParams.Valid],
    by norm_num [ValidObservedState, YearState.Valid],
    policies_return_nonneg.2.2.1 (1 / 20) (some ⟨2025, 66, 500000, 0, none⟩)
      ⟨1000000, 1 / 2, 50, 42⟩ (by norm_num [constantPercentageValid])
      (by norm_num [PortfolioParams.Valid])
      (by norm_num [ValidObservedState, YearState.Valid])⟩

/-- C5 counterexample: pydantic validation of `YearState` constrains only
the age, so the state (2024, 65, balance -100, inflation 0) is valid;
with valid parameters, the freshly constructed shipped
`ConstantPercentageStrategy` (5 percent) returns -5, a negative
withdrawal, on that validated input. -/
theorem policies_nonneg_counterexample :
    constantPercentageValid (1 / 20) ∧
    PortfolioParams.Valid ⟨100, 1 / 2, 0, 42⟩ ∧
    YearState.Valid ⟨2024, 65, -100, 0, none⟩ ∧
    ((constantPercentageStrategy (1 / 20)).calcW (constantPercentageStrategy (1 / 20)).init
        (some ⟨2024, 65, -100, 0, none⟩) ⟨100, 1 / 2, 0, 42⟩).1 = -5 ∧
    ((-5 : ℚ) < 0) :=
  ⟨by norm_num [constantPercentageValid],
    by norm_num [PortfolioParams.Valid],
    by norm_num [YearState.Valid],
    by with_unfolding_all rfl,
    by norm_num⟩
